import Mathlib

/-!
Shallow embedding of the Busy-tourism web app's itinerary page and map
component, translated from `src/components/Map.tsx` and
`src/pages/Itinerary.tsx`.

The map component keeps a registry of leaflet markers (a JS object keyed
by place id), fully rebuilds it on every place-list change
(`updateMarkers`), and runs an animation-frame-debounced highlight pass
(`highlightMarker`) when the hovered place changes.  The itinerary page
has share / download / clear-confirmation handlers.

Marker objects are mutable JS objects shared between the registry and the
map surface; object identity is modelled by a `handle : Nat` stamped at
creation time from a fresh-handle counter.  Geographic coordinates and
ratings are decimal literals in the source; they are embedded as
rationals, on which the only operations the code performs (copying,
comparison, min/max for bounding boxes) are exact.
-/

namespace BusyTourism

/-- A tourist place as consumed by the map view and the itinerary page
(`TouristPlace` from `src/services/api`): identifier, display name,
category label, rating, coordinates and the business-friendly flag. -/
structure TouristPlace where
  id : String
  name : String
  category : String
  rating : Rat
  lat : Rat
  lng : Rat
  isBusinessFriendly : Bool
deriving DecidableEq

/-- The two marker icon variants created during map setup
(`defaultIconInstance` and `highlightedIconInstance`). -/
inductive IconKind
  | defaultIcon
  | highlighted
deriving DecidableEq

/-- The popup bound to a marker (`marker.bindPopup`) shows the place
name, category, rating and an optional business-friendly badge. -/
structure PopupContent where
  name : String
  category : String
  rating : Rat
  businessBadge : Bool
deriving DecidableEq

/-- A leaflet marker object.  `handle` models JS object identity (the
registry and the map surface alias the same objects); the remaining
fields are the marker's observable state. -/
structure Marker where
  handle : Nat
  placeId : String
  lat : Rat
  lng : Rat
  icon : IconKind
  popupOpen : Bool
  popup : PopupContent
deriving DecidableEq

/-- A geographic bounding box, as produced by
`L.featureGroup(markerArray).getBounds()`. -/
structure Bounds where
  minLat : Rat
  maxLat : Rat
  minLng : Rat
  maxLng : Rat
deriving DecidableEq

/-- The map viewport's center: either an explicit coordinate (set by
`setView` / `panTo`) or the center resulting from fitting a bounding box
with a padding margin (`fitBounds`). -/
inductive CenterVal
  | coord (lat lng : Rat)
  | fittedCenter (b : Bounds) (padX padY : Nat)
deriving DecidableEq

/-- The map viewport's zoom: either an explicit level (set by `setView`)
or the zoom resulting from fitting a bounding box with a padding margin
(`fitBounds`).  `panTo` never touches this component. -/
inductive ZoomVal
  | level (z : Nat)
  | fittedZoom (b : Bounds) (padX padY : Nat)
deriving DecidableEq

/-- The map instance's view state. -/
structure Viewport where
  center : CenterVal
  zoom : ZoomVal
deriving DecidableEq

/-- A toast emitted through the `sonner` collaborator. -/
inductive Toast
  | error (msg : String)
  | success (msg : String)
deriving DecidableEq

/-- The mutable state of the map component: `mapInstanceRef`,
`markersRef` (the registry, a string-keyed JS object embedded as an
association list in key-insertion order), the markers currently added to
the map surface, the two icon states (modelled by their presence, which
is all the guards inspect), the `isMapInitialized` flag, the fresh
marker-handle counter, and the emitted toasts / console errors. -/
structure MapState where
  mapInstance : Option Viewport
  onMap : List Marker
  markersReg : List (String × Marker)
  defaultIcon : Bool
  highlightedIcon : Bool
  isMapInitialized : Bool
  nextHandle : Nat
  toasts : List Toast
  consoleErrors : List String
deriving DecidableEq

/-- Keys of the marker registry (`Object.keys(markersRef.current)`). -/
def regKeys (reg : List (String × Marker)) : List String :=
  reg.map Prod.fst

/-- Values of the marker registry (`Object.values(markersRef.current)`). -/
def regValues (reg : List (String × Marker)) : List Marker :=
  reg.map Prod.snd

/-- JS object property assignment `markersRef.current[k] = m`: replaces
in place if the key exists, otherwise appends (JS objects preserve
key-insertion order). -/
def regInsert (reg : List (String × Marker)) (k : String) (m : Marker) :
    List (String × Marker) :=
  if k ∈ regKeys reg then
    reg.map (fun e => if e.1 = k then (k, m) else e)
  else
    reg ++ [(k, m)]

/-- JS object property lookup `markersRef.current[k]`. -/
def regFind (reg : List (String × Marker)) (k : String) : Option Marker :=
  (reg.find? (fun e => e.1 == k)).map Prod.snd

/-- The identity-carrying part of a marker, used to relate the registry
to the markers on the map surface across icon / popup mutation. -/
def markerPairs (l : List Marker) : List (Nat × String) :=
  l.map (fun m => (m.handle, m.placeId))

/-- `marker.remove()`: detaches the marker object from the map surface. -/
def removeFromMap (onMap : List Marker) (m : Marker) : List Marker :=
  onMap.filter (fun x => decide (x.handle ≠ m.handle))

/-- The clearing phase of `updateMarkers` (Map.tsx lines 107-109):
every registered marker is removed from the map surface and the registry
is reset to the empty object. -/
def clearMarkers (s : MapState) : MapState :=
  { s with
    onMap := s.markersReg.foldl (fun acc e => removeFromMap acc e.2) s.onMap,
    markersReg := [] }

/-- Popup content bound to a freshly created marker. -/
def mkPopup (p : TouristPlace) : PopupContent :=
  ⟨p.name, p.category, p.rating, p.isBusinessFriendly⟩

/-- `L.marker([lat, lng], { icon: defaultIcon }).bindPopup(...)`: a fresh
marker at the place's coordinate with the default icon and a closed
popup. -/
def mkMarker (h : Nat) (p : TouristPlace) : Marker :=
  ⟨h, p.id, p.lat, p.lng, IconKind.defaultIcon, false, mkPopup p⟩

/-- One iteration of the `places.forEach` loop in `updateMarkers`:
create a marker, add it to the map, register it under the place's id. -/
def addPlaceMarker (s : MapState) (p : TouristPlace) : MapState :=
  let m := mkMarker s.nextHandle p
  { s with
    onMap := s.onMap ++ [m],
    markersReg := regInsert s.markersReg p.id m,
    nextHandle := s.nextHandle + 1 }

/-- Extend a bounding box to cover one more coordinate. -/
def boundsIns (b : Bounds) (c : Rat × Rat) : Bounds :=
  ⟨min b.minLat c.1, max b.maxLat c.1, min b.minLng c.2, max b.maxLng c.2⟩

/-- One step of accumulating a bounding box over a coordinate list. -/
def boundsStep (acc : Option Bounds) (c : Rat × Rat) : Option Bounds :=
  match acc with
  | none => some ⟨c.1, c.1, c.2, c.2⟩
  | some b => some (boundsIns b c)

/-- `L.featureGroup(markers).getBounds()`: the smallest bounding box
covering the given coordinates (`none` for an empty collection). -/
def boundsOf (ps : List (Rat × Rat)) : Option Bounds :=
  ps.foldl boundsStep none

/-- A bounding box covers a coordinate. -/
def boundsCovers (b : Bounds) (c : Rat × Rat) : Prop :=
  b.minLat ≤ c.1 ∧ c.1 ≤ b.maxLat ∧ b.minLng ≤ c.2 ∧ c.2 ≤ b.maxLng

/-- A bounding box contains another one. -/
def boundsExtends (b2 b : Bounds) : Prop :=
  b2.minLat ≤ b.minLat ∧ b.maxLat ≤ b2.maxLat ∧
  b2.minLng ≤ b.minLng ∧ b.maxLng ≤ b2.maxLng

/-- Coordinates of the registry's markers, in registry order. -/
def markerLatLngs (reg : List (String × Marker)) : List (Rat × Rat) :=
  reg.map (fun e => (e.2.lat, e.2.lng))

/-- `fitBounds(bounds, { padding: [50, 50], ... })`: the viewport
resulting from fitting a bounding box with the fixed 50-pixel padding
margin used in `updateMarkers`. -/
def fitBoundsViewport (b : Bounds) : Viewport :=
  ⟨CenterVal.fittedCenter b 50 50, ZoomVal.fittedZoom b 50 50⟩

/-- The body of `updateMarkers` (Map.tsx lines 100-146).  `importOk`
models whether the dynamic `import("leaflet")` (the `try` block's only
fallible step, which precedes every mutation) succeeds; on failure the
`catch` logs to the console and changes nothing else.  With the guard of
line 101 passed and the import successful: clear all registered markers,
rebuild one marker per place, and fit the viewport to the new markers
when the list is non-empty. -/
def updateMarkers (importOk : Bool) (places : List TouristPlace)
    (s : MapState) : MapState :=
  if s.mapInstance.isNone || !s.defaultIcon then s
  else if !importOk then
    { s with consoleErrors := s.consoleErrors ++ ["Error updating markers:"] }
  else
    let s2 := places.foldl addPlaceMarker (clearMarkers s)
    if places.length > 0 then
      match boundsOf (markerLatLngs s2.markersReg) with
      | some b => { s2 with mapInstance := some (fitBoundsViewport b) }
      | none => s2
    else s2

/-- The marker-update effect (Map.tsx lines 148-150): `updateMarkers`
runs only when the `isMapInitialized` flag is set. -/
def tryUpdateMarkers (importOk : Bool) (places : List TouristPlace)
    (s : MapState) : MapState :=
  if s.isMapInitialized then updateMarkers importOk places s else s

/-- `setView(center, zoom)` at map creation. -/
def initialViewport (centerLat centerLng : Rat) (zoom : Nat) : Viewport :=
  ⟨CenterVal.coord centerLat centerLng, ZoomVal.level zoom⟩

/-- The body of `initializeMap` (Map.tsx lines 28-89).  The dynamic
`import("leaflet")` comes first (`importOk`); on failure the `catch`
emits the single error toast and nothing else changes.  Then the guard
of line 33 (`!isMounted || !mapRef.current || isMapInitialized`) returns
early; otherwise both icons are created, the map instance is created
with the initial viewport, and the `isMapInitialized` flag is set. -/
def initializeMap (importOk mounted containerPresent : Bool)
    (centerLat centerLng : Rat) (zoom : Nat) (s : MapState) : MapState :=
  if !importOk then
    { s with
      consoleErrors := s.consoleErrors ++ ["Error initializing map:"],
      toasts :=
        s.toasts ++ [Toast.error "Failed to load map. Please refresh the page."] }
  else if !mounted || !containerPresent || s.isMapInitialized then s
  else
    { s with
      defaultIcon := true,
      highlightedIcon := true,
      mapInstance := some (initialViewport centerLat centerLng zoom),
      isMapInitialized := true }

/-- The reset step of `highlightMarker` (Map.tsx lines 159-164) applied
to a single registry entry: every marker whose id differs from the
hovered id gets the default icon and a closed popup. -/
def resetEntry (hov : Option String) (e : String × Marker) :
    String × Marker :=
  if some e.1 ≠ hov then
    (e.1, { e.2 with icon := IconKind.defaultIcon, popupOpen := false })
  else e

/-- The reset loop of `highlightMarker` over the whole registry. -/
def resetReg (hov : Option String) (reg : List (String × Marker)) :
    List (String × Marker) :=
  reg.map (resetEntry hov)

/-- The body of `highlightMarker` (Map.tsx lines 157-179): reset all
non-hovered markers; then, if the hovered id names a registered marker,
switch it to the highlighted icon, open its popup, and pan the viewport
(zoom untouched) to its coordinate. -/
def highlightPass (hov : Option String) (s : MapState) : MapState :=
  let reg1 := resetReg hov s.markersReg
  match hov with
  | some h =>
    match regFind reg1 h with
    | some m =>
      let m' := { m with icon := IconKind.highlighted, popupOpen := true }
      { s with
        markersReg := reg1.map (fun e => if e.1 = h then (h, m') else e),
        mapInstance := s.mapInstance.map
          (fun v => { v with center := CenterVal.coord m.lat m.lng }) }
    | none => { s with markersReg := reg1 }
  | none => { s with markersReg := reg1 }

/-- The guard of the hover effect (Map.tsx line 155): the map instance
and both icons must exist before a highlight pass is scheduled. -/
def hoverGuard (s : MapState) : Bool :=
  s.mapInstance.isSome && s.defaultIcon && s.highlightedIcon

/-- The full render-time state of the map component: map state plus the
current props and the pending animation-frame callback (carrying the
hovered id captured by the scheduled `highlightMarker` closure). -/
structure ComponentState where
  ms : MapState
  hovered : Option String
  places : List TouristPlace
  pendingFrame : Option (Option String)
deriving DecidableEq

/-- The events the component reacts to: a change of the `hoveredPlaceId`
prop, a change of the `places` prop, and the firing of a scheduled
animation frame. -/
inductive MapEvent
  | hoverChange (h : Option String)
  | placesChange (ps : List TouristPlace)
  | frameFire
deriving DecidableEq

/-- Single-threaded event step.  On a hover change the cleanup of the
previous hover effect cancels any pending frame
(`cancelAnimationFrame`, lines 184-186), then the new effect schedules a
fresh `highlightMarker` run via `requestAnimationFrame` (line 182) when
its guard passes.  On a places change the marker-update effect runs
synchronously (it schedules nothing).  On a frame firing, the scheduled
highlight pass runs with its captured hovered id. -/
def stepEvent : MapEvent → ComponentState → ComponentState
  | MapEvent.hoverChange h, c =>
    let c1 := { c with hovered := h, pendingFrame := none }
    if hoverGuard c.ms then { c1 with pendingFrame := some h } else c1
  | MapEvent.placesChange ps, c =>
    { c with places := ps, ms := tryUpdateMarkers true ps c.ms }
  | MapEvent.frameFire, c =>
    match c.pendingFrame with
    | some h => { c with ms := highlightPass h c.ms, pendingFrame := none }
    | none => c

/-- Well-formedness of the map state, maintained by every pass: the
markers on the map surface are exactly the registry's values (same
objects, compared by identity and place id, in the same order), and the
registry — a JS object — has no duplicate keys. -/
def WF (s : MapState) : Prop :=
  markerPairs s.onMap = markerPairs (regValues s.markersReg) ∧
  (regKeys s.markersReg).Nodup

instance (s : MapState) : Decidable (WF s) := by
  unfold WF; infer_instance

/-- `handleShare` (Itinerary.tsx lines 13-22): pure in the itinerary; it
only emits a toast.  The handler is modelled as returning the emitted
toast together with the (untouched) itinerary. -/
def handleShare (it : List TouristPlace) : Toast × List TouristPlace :=
  if it.length = 0 then
    (Toast.error "You don\x27t have any places to share", it)
  else
    (Toast.success "Sharing is not available in the demo", it)

/-- `handleDownload` (Itinerary.tsx lines 24-33). -/
def handleDownload (it : List TouristPlace) : Toast × List TouristPlace :=
  if it.length = 0 then
    (Toast.error "You don\x27t have any places to download", it)
  else
    (Toast.success "Download is not available in the demo", it)

/-- The itinerary page's state: the itinerary from the store, the
`showConfirmClear` flag, the delays (ms) of the scheduled auto-hide
timeouts, and a counter of invocations of the store's `clearItinerary`
operation. -/
structure PageState where
  itinerary : List TouristPlace
  showConfirmClear : Bool
  pendingClearTimeouts : List Nat
  clearCalls : Nat
deriving DecidableEq

/-- The store's `clearItinerary` as observed by the page: empties the
itinerary (and bumps the invocation counter used to state when the store
operation was actually called). -/
def clearItinerary (s : PageState) : PageState :=
  { s with itinerary := [], clearCalls := s.clearCalls + 1 }

/-- `handleClearItinerary` (Itinerary.tsx lines 35-47): with the
confirmation armed, call the store's clear and disarm; otherwise arm the
confirmation and schedule a 3000 ms auto-hide timeout. -/
def handleClearItinerary (s : PageState) : PageState :=
  if s.showConfirmClear then
    { clearItinerary s with showConfirmClear := false }
  else
    { s with
      showConfirmClear := true,
      pendingClearTimeouts := s.pendingClearTimeouts ++ [3000] }

/-- Firing of one scheduled auto-hide timeout (Itinerary.tsx lines
43-45): disarms the confirmation; the itinerary is untouched. -/
def clearTimeoutFire (s : PageState) : PageState :=
  match s.pendingClearTimeouts with
  | [] => s
  | _ :: rest =>
    { s with showConfirmClear := false, pendingClearTimeouts := rest }

/-- Modelled from the spec: the itinerary store (`ItineraryContext`) is
not among the provided source files, only its callers are.  Per spec
§4.1, `add(place)` inserts the place if its identifier is not already
present and otherwise has no effect. -/
def itinAdd (it : List TouristPlace) (p : TouristPlace) :
    List TouristPlace :=
  if p.id ∈ it.map TouristPlace.id then it else it ++ [p]

/-- Modelled from the spec: `remove(placeId)` deletes the entry with the
matching identifier if present; no effect if absent (spec §4.1). -/
def itinRemove (it : List TouristPlace) (pid : String) :
    List TouristPlace :=
  it.filter (fun q => decide (q.id ≠ pid))

/-- Modelled from the spec: `clear()` empties the itinerary
unconditionally (spec §4.1). -/
def itinClear : List TouristPlace := []

/-- One add / remove operation on the itinerary store. -/
inductive ItinOp
  | add (p : TouristPlace)
  | remove (pid : String)
deriving DecidableEq

/-- Apply one itinerary operation. -/
def applyOp (it : List TouristPlace) : ItinOp → List TouristPlace
  | ItinOp.add p => itinAdd it p
  | ItinOp.remove pid => itinRemove it pid

/-- Run a sequence of operations on the initially empty itinerary. -/
def runOps (ops : List ItinOp) : List TouristPlace :=
  ops.foldl applyOp []

/-- Identifiers added somewhere in an operation sequence. -/
def addsOf (ops : List ItinOp) : List String :=
  ops.filterMap (fun op =>
    match op with
    | ItinOp.add p => some p.id
    | ItinOp.remove _ => none)

/-- Identifiers removed somewhere in an operation sequence. -/
def removesOf (ops : List ItinOp) : List String :=
  ops.filterMap (fun op =>
    match op with
    | ItinOp.add _ => none
    | ItinOp.remove pid => some pid)

/-- Last-operation-wins tracking step for one identifier. -/
def trackStep (i : String) (acc : Bool) : ItinOp → Bool
  | ItinOp.add p => if p.id = i then true else acc
  | ItinOp.remove pid => if pid = i then false else acc

/-- Whether an identifier is present after running an operation
sequence, starting from presence state `b`. -/
def trackFrom (b : Bool) (ops : List ItinOp) (i : String) : Bool :=
  ops.foldl (trackStep i) b

/-- Whether an identifier is present after running an operation sequence
on the empty itinerary: true iff the last operation touching it is an
add. -/
def trackMem (ops : List ItinOp) (i : String) : Bool :=
  trackFrom false ops i

/-- The registry produced by the `places.forEach` loop when all place
ids are fresh: one entry per place, in list order, with handles counting
up from `h`. -/
def buildReg (h : Nat) : List TouristPlace → List (String × Marker)
  | [] => []
  | p :: ps => (p.id, mkMarker h p) :: buildReg (h + 1) ps

/-- The markers created by the `places.forEach` loop, in creation
order. -/
def buildMarkers (h : Nat) : List TouristPlace → List Marker
  | [] => []
  | p :: ps => mkMarker h p :: buildMarkers (h + 1) ps

/-- Sample place, used to instantiate witnesses. -/
def placeP1 : TouristPlace := ⟨"p1", "Adalaj Stepwell", "heritage", 4, 23, 72, true⟩

/-- Second sample place, used to instantiate witnesses. -/
def placeP2 : TouristPlace := ⟨"p2", "Kankaria Lake", "nature", 5, 24, 73, false⟩

/-- The component's state before any effect has run. -/
def emptyMapState : MapState := ⟨none, [], [], false, false, false, 0, [], []⟩

/-- The map state after a successful initialization with the default
center and zoom props of the component. -/
def readyMapState : MapState := initializeMap true true true 23 72 12 emptyMapState

/-- The map state after a successful initialization followed by a marker
synchronization with the two sample places. -/
def twoPlaceState : MapState := updateMarkers true [placeP1, placeP2] readyMapState

/-- A fully rendered component with two places and no hover. -/
def readyComponent : ComponentState := ⟨twoPlaceState, none, [placeP1, placeP2], none⟩

/-- A page state with one place, confirmation not armed. -/
def pageState0 : PageState := ⟨[placeP1], false, [], 0⟩

/-- An operation sequence re-adding a place after removing it. -/
def cexOps : List ItinOp :=
  [ItinOp.add placeP1, ItinOp.remove "p1", ItinOp.add placeP1]

/-! ### Registry lemmas -/

theorem resetEntry_fst (hov : Option String) (e : String × Marker) :
    (resetEntry hov e).1 = e.1 := by
  unfold resetEntry; split <;> rfl

theorem regKeys_resetReg (hov : Option String) (reg : List (String × Marker)) :
    regKeys (resetReg hov reg) = regKeys reg := by
  unfold regKeys resetReg
  rw [List.map_map]
  exact List.map_congr_left (fun e _ => resetEntry_fst hov e)

theorem mem_regKeys {reg : List (String × Marker)} {i : String} :
    i ∈ regKeys reg ↔ ∃ e ∈ reg, e.1 = i := by
  unfold regKeys
  constructor
  · intro h
    rcases List.mem_map.mp h with ⟨e, he, hfst⟩
    exact ⟨e, he, hfst⟩
  · rintro ⟨e, he, hfst⟩
    exact List.mem_map.mpr ⟨e, he, hfst⟩

theorem regKeys_regInsert_inPlace {reg : List (String × Marker)}
    {k : String} (m : Marker) (h : k ∈ regKeys reg) :
    regKeys (regInsert reg k m) = regKeys reg := by
  unfold regInsert
  rw [if_pos h]
  unfold regKeys
  rw [List.map_map]
  refine List.map_congr_left (fun e _ => ?_)
  by_cases he : e.1 = k
  · simp [he]
  · simp [he]

theorem regInsert_fresh {reg : List (String × Marker)} {k : String}
    (m : Marker) (h : k ∉ regKeys reg) :
    regInsert reg k m = reg ++ [(k, m)] := by
  unfold regInsert
  rw [if_neg h]

theorem mem_regKeys_regInsert {reg : List (String × Marker)}
    {k i : String} (m : Marker) :
    i ∈ regKeys (regInsert reg k m) ↔ i ∈ regKeys reg ∨ i = k := by
  by_cases h : k ∈ regKeys reg
  · rw [regKeys_regInsert_inPlace m h]
    constructor
    · exact Or.inl
    · rintro (hi | rfl)
      · exact hi
      · exact h
  · rw [regInsert_fresh m h]
    unfold regKeys
    simp

theorem regKeys_regInsert_nodup {reg : List (String × Marker)}
    {k : String} (m : Marker) (h : (regKeys reg).Nodup) :
    (regKeys (regInsert reg k m)).Nodup := by
  by_cases hk : k ∈ regKeys reg
  · rw [regKeys_regInsert_inPlace m hk]; exact h
  · rw [regInsert_fresh m hk]
    unfold regKeys at *
    simp [List.nodup_append, h, hk]

theorem mem_regInsert {reg : List (String × Marker)}
    {k : String} {m : Marker} {e : String × Marker}
    (h : e ∈ regInsert reg k m) : e ∈ reg ∨ e = (k, m) := by
  unfold regInsert at h
  split at h
  · rcases List.mem_map.mp h with ⟨e0, he0, heq⟩
    by_cases h0 : e0.1 = k
    · right; rw [← heq]; simp [h0]
    · left; rw [← heq]; simpa [h0] using he0
  · rcases List.mem_append.mp h with h1 | h1
    · exact Or.inl h1
    · right; simpa using h1

/-! ### Build-function lemmas -/

theorem buildReg_keys (h : Nat) (ps : List TouristPlace) :
    regKeys (buildReg h ps) = ps.map TouristPlace.id := by
  induction ps generalizing h with
  | nil => rfl
  | cons p ps ih => simp [buildReg, regKeys] at *; exact ih (h + 1)

theorem buildReg_values (h : Nat) (ps : List TouristPlace) :
    regValues (buildReg h ps) = buildMarkers h ps := by
  induction ps generalizing h with
  | nil => rfl
  | cons p ps ih => simp [buildReg, buildMarkers, regValues] at *; exact ih (h + 1)

theorem buildMarkers_placeIds (h : Nat) (ps : List TouristPlace) :
    (buildMarkers h ps).map Marker.placeId = ps.map TouristPlace.id := by
  induction ps generalizing h with
  | nil => rfl
  | cons p ps ih => simp [buildMarkers, mkMarker] at *; exact ih (h + 1)

theorem buildMarkers_length (h : Nat) (ps : List TouristPlace) :
    (buildMarkers h ps).length = ps.length := by
  induction ps generalizing h with
  | nil => rfl
  | cons p ps ih => simp [buildMarkers] at *; exact ih (h + 1)

theorem buildReg_entry_default {ps : List TouristPlace} :
    ∀ {h : Nat} {e : String × Marker}, e ∈ buildReg h ps →
      e.2.icon = IconKind.defaultIcon ∧ e.2.popupOpen = false := by
  induction ps with
  | nil => intro h e he; cases he
  | cons p ps ih =>
    intro h e he
    rw [buildReg] at he
    rcases List.mem_cons.mp he with rfl | h1
    · exact ⟨rfl, rfl⟩
    · exact ih h1

theorem markerLatLngs_buildReg (h : Nat) (ps : List TouristPlace) :
    markerLatLngs (buildReg h ps) = ps.map (fun p => (p.lat, p.lng)) := by
  induction ps generalizing h with
  | nil => rfl
  | cons p ps ih => simp [buildReg, markerLatLngs, mkMarker] at *; exact ih (h + 1)

/-! ### Marker-synchronization (forEach loop) lemmas -/

theorem foldl_apm_reg {places : List TouristPlace} :
    ∀ {s : MapState}, (∀ p ∈ places, p.id ∉ regKeys s.markersReg) →
      (places.map TouristPlace.id).Nodup →
      (places.foldl addPlaceMarker s).markersReg =
        s.markersReg ++ buildReg s.nextHandle places := by
  induction places with
  | nil => intro s _ _; simp [buildReg]
  | cons p ps ih =>
    intro s hfresh hnd
    rw [List.foldl_cons]
    have hfr : p.id ∉ regKeys s.markersReg := hfresh p (List.mem_cons_self p ps)
    have hreg : (addPlaceMarker s p).markersReg =
        s.markersReg ++ [(p.id, mkMarker s.nextHandle p)] := by
      unfold addPlaceMarker
      exact regInsert_fresh _ hfr
    have hkeys : regKeys ((addPlaceMarker s p).markersReg) =
        regKeys s.markersReg ++ [p.id] := by
      rw [hreg]; unfold regKeys; simp
    have hnext : (addPlaceMarker s p).nextHandle = s.nextHandle + 1 := rfl
    have hfresh2 : ∀ q ∈ ps, q.id ∉ regKeys ((addPlaceMarker s p).markersReg) := by
      intro q hq
      rw [hkeys]
      intro hmem
      rcases List.mem_append.mp hmem with h1 | h1
      · exact hfresh q (List.mem_cons_of_mem p hq) h1
      · have : q.id = p.id := by simpa using h1
        simp [List.nodup_cons] at hnd
        exact hnd.1 q hq this
    have hnd2 : (ps.map TouristPlace.id).Nodup := by
      simp [List.nodup_cons] at hnd; exact hnd.2
    rw [ih hfresh2 hnd2, hreg, hnext, buildReg]
    simp

theorem foldl_apm_onMap {places : List TouristPlace} :
    ∀ {s : MapState},
      (places.foldl addPlaceMarker s).onMap =
        s.onMap ++ buildMarkers s.nextHandle places := by
  induction places with
  | nil => intro s; simp [buildMarkers]
  | cons p ps ih =>
    intro s
    rw [List.foldl_cons, ih]
    show s.onMap ++ [mkMarker s.nextHandle p] ++
        buildMarkers (s.nextHandle + 1) ps = _
    rw [buildMarkers]
    simp

theorem foldl_apm_mapInstance (places : List TouristPlace) :
    ∀ s : MapState,
      (places.foldl addPlaceMarker s).mapInstance = s.mapInstance := by
  induction places with
  | nil => intro s; rfl
  | cons p ps ih => intro s; rw [List.foldl_cons]; exact ih _

theorem foldl_apm_keys_mem (places : List TouristPlace) :
    ∀ (s : MapState) (i : String),
      i ∈ regKeys ((places.foldl addPlaceMarker s).markersReg) ↔
        i ∈ regKeys s.markersReg ∨ i ∈ places.map TouristPlace.id := by
  induction places with
  | nil => intro s i; simp
  | cons p ps ih =>
    intro s i
    rw [List.foldl_cons, ih]
    have : i ∈ regKeys ((addPlaceMarker s p).markersReg) ↔
        i ∈ regKeys s.markersReg ∨ i = p.id :=
      mem_regKeys_regInsert _
    rw [this]
    simp [or_assoc]

theorem foldl_apm_keys_nodup (places : List TouristPlace) :
    ∀ s : MapState, (regKeys s.markersReg).Nodup →
      (regKeys ((places.foldl addPlaceMarker s).markersReg)).Nodup := by
  induction places with
  | nil => intro s h; exact h
  | cons p ps ih =>
    intro s h
    rw [List.foldl_cons]
    exact ih _ (regKeys_regInsert_nodup _ h)

theorem foldl_apm_entry_default (places : List TouristPlace) :
    ∀ s : MapState,
      (∀ e ∈ s.markersReg,
        e.2.icon = IconKind.defaultIcon ∧ e.2.popupOpen = false) →
      ∀ e ∈ (places.foldl addPlaceMarker s).markersReg,
        e.2.icon = IconKind.defaultIcon ∧ e.2.popupOpen = false := by
  induction places with
  | nil => intro s h; exact h
  | cons p ps ih =>
    intro s h
    rw [List.foldl_cons]
    refine ih _ ?_
    intro e he
    rcases mem_regInsert he with h1 | rfl
    · exact h e h1
    · exact ⟨rfl, rfl⟩

/-! ### Clearing-phase lemmas -/

theorem clearMarkers_reg (s : MapState) : (clearMarkers s).markersReg = [] := rfl

theorem clearMarkers_mapInstance (s : MapState) :
    (clearMarkers s).mapInstance = s.mapInstance := rfl

theorem clearMarkers_nextHandle (s : MapState) :
    (clearMarkers s).nextHandle = s.nextHandle := rfl

theorem markerPairs_fst (l : List Marker) :
    (markerPairs l).map Prod.fst = l.map Marker.handle := by
  unfold markerPairs
  rw [List.map_map]
  rfl

theorem regHandles_eq (reg : List (String × Marker)) :
    reg.map (fun e => e.2.handle) = (regValues reg).map Marker.handle := by
  unfold regValues
  rw [List.map_map]
  rfl

theorem removeAll_eq (l : List (String × Marker)) :
    ∀ init : List Marker,
      l.foldl (fun acc e => removeFromMap acc e.2) init =
        init.filter
          (fun x => decide (x.handle ∉ l.map (fun e => e.2.handle))) := by
  induction l with
  | nil =>
    intro init
    simp
  | cons e es ih =>
    intro init
    rw [List.foldl_cons, ih]
    unfold removeFromMap
    rw [List.filter_filter]
    refine List.filter_congr (fun x _ => ?_)
    by_cases h2 : x.handle = e.2.handle <;>
      by_cases h1 : x.handle ∈ es.map (fun e => e.2.handle) <;>
        simp [h1, h2, Bool.and_comm]

theorem clearMarkers_onMap_of_WF {s : MapState} (h : WF s) :
    (clearMarkers s).onMap = [] := by
  have hpairs := h.1
  have hhandles : s.onMap.map Marker.handle =
      (regValues s.markersReg).map Marker.handle := by
    rw [← markerPairs_fst, ← markerPairs_fst, hpairs]
  show s.markersReg.foldl (fun acc e => removeFromMap acc e.2) s.onMap = []
  rw [removeAll_eq]
  rw [List.filter_eq_nil_iff]
  intro m hm
  have : m.handle ∈ s.markersReg.map (fun e => e.2.handle) := by
    rw [regHandles_eq, ← hhandles]
    exact List.mem_map_of_mem Marker.handle hm
  simp [this]

/-! ### Bounding-box lemmas -/

theorem foldl_boundsStep_isSome (cs : List (Rat × Rat)) :
    ∀ b : Bounds, ∃ b2, cs.foldl boundsStep (some b) = some b2 := by
  induction cs with
  | nil => intro b; exact ⟨b, rfl⟩
  | cons c cs ih => intro b; rw [List.foldl_cons]; exact ih (boundsIns b c)

theorem boundsOf_isSome {ps : List (Rat × Rat)} (h : ps ≠ []) :
    ∃ b, boundsOf ps = some b := by
  cases ps with
  | nil => exact absurd rfl h
  | cons c cs =>
    unfold boundsOf
    rw [List.foldl_cons]
    exact foldl_boundsStep_isSome cs _

theorem boundsExtends_refl (b : Bounds) : boundsExtends b b :=
  ⟨le_refl _, le_refl _, le_refl _, le_refl _⟩

theorem boundsExtends_trans {b3 b2 b : Bounds} (h1 : boundsExtends b3 b2)
    (h2 : boundsExtends b2 b) : boundsExtends b3 b :=
  ⟨le_trans h1.1 h2.1, le_trans h2.2.1 h1.2.1,
   le_trans h1.2.2.1 h2.2.2.1, le_trans h2.2.2.2 h1.2.2.2⟩

theorem boundsIns_extends (b : Bounds) (c : Rat × Rat) :
    boundsExtends (boundsIns b c) b :=
  ⟨min_le_left _ _, le_max_left _ _, min_le_left _ _, le_max_left _ _⟩

theorem boundsIns_covers (b : Bounds) (c : Rat × Rat) :
    boundsCovers (boundsIns b c) c :=
  ⟨min_le_right _ _, le_max_right _ _, min_le_right _ _, le_max_right _ _⟩

theorem boundsCovers_of_extends {b2 b : Bounds} {c : Rat × Rat}
    (hx : boundsExtends b2 b) (hc : boundsCovers b c) : boundsCovers b2 c :=
  ⟨le_trans hx.1 hc.1, le_trans hc.2.1 hx.2.1,
   le_trans hx.2.2.1 hc.2.2.1, le_trans hc.2.2.2 hx.2.2.2⟩

theorem foldl_boundsStep_covers (cs : List (Rat × Rat)) :
    ∀ (b0 b : Bounds), cs.foldl boundsStep (some b0) = some b →
      boundsExtends b b0 ∧ ∀ c ∈ cs, boundsCovers b c := by
  induction cs with
  | nil =>
    intro b0 b h
    refine ⟨?_, by intro c hc; cases hc⟩
    cases h
    exact boundsExtends_refl _
  | cons c cs ih =>
    intro b0 b h
    rw [List.foldl_cons] at h
    have h1 := ih (boundsIns b0 c) b h
    refine ⟨boundsExtends_trans h1.1 (boundsIns_extends b0 c), ?_⟩
    intro c2 hc2
    rcases List.mem_cons.mp hc2 with rfl | hc2
    · exact boundsCovers_of_extends h1.1 (boundsIns_covers b0 c2)
    · exact h1.2 c2 hc2

theorem boundsOf_covers {ps : List (Rat × Rat)} {b : Bounds}
    (h : boundsOf ps = some b) : ∀ c ∈ ps, boundsCovers b c := by
  cases ps with
  | nil => cases h
  | cons c cs =>
    unfold boundsOf at h
    rw [List.foldl_cons] at h
    have h1 := foldl_boundsStep_covers cs _ b h
    intro c2 hc2
    rcases List.mem_cons.mp hc2 with rfl | hc2
    · exact boundsCovers_of_extends h1.1 ⟨le_refl _, le_refl _, le_refl _, le_refl _⟩
    · exact h1.2 c2 hc2

/-! ### updateMarkers characterization -/

theorem updateMarkers_guard {places : List TouristPlace} {s : MapState}
    {importOk : Bool} (h : s.mapInstance = none ∨ s.defaultIcon = false) :
    updateMarkers importOk places s = s := by
  unfold updateMarkers
  rcases h with h | h <;> rw [h] <;> simp

theorem updateMarkers_fail {places : List TouristPlace} {s : MapState}
    (h1 : s.mapInstance.isSome = true) (h2 : s.defaultIcon = true) :
    updateMarkers false places s =
      { s with consoleErrors := s.consoleErrors ++ ["Error updating markers:"] } := by
  have h1' : s.mapInstance.isNone = false := by
    cases hm : s.mapInstance
    · rw [hm] at h1; cases h1
    · rfl
  unfold updateMarkers
  rw [h1', h2]
  simp

theorem updateMarkers_run (places : List TouristPlace) {s : MapState}
    (h1 : s.mapInstance.isSome = true) (h2 : s.defaultIcon = true) :
    updateMarkers true places s =
      (if places.length > 0 then
        match boundsOf (markerLatLngs
            ((places.foldl addPlaceMarker (clearMarkers s)).markersReg)) with
        | some b =>
          { places.foldl addPlaceMarker (clearMarkers s) with
              mapInstance := some (fitBoundsViewport b) }
        | none => places.foldl addPlaceMarker (clearMarkers s)
      else places.foldl addPlaceMarker (clearMarkers s)) := by
  have h1' : s.mapInstance.isNone = false := by
    cases hm : s.mapInstance
    · rw [hm] at h1; cases h1
    · rfl
  unfold updateMarkers
  rw [h1', h2]
  simp

theorem foldl_apm_clear_reg (places : List TouristPlace) {s : MapState}
    (hnd : (places.map TouristPlace.id).Nodup) :
    (places.foldl addPlaceMarker (clearMarkers s)).markersReg =
      buildReg s.nextHandle places := by
  have hfresh : ∀ p ∈ places, p.id ∉ regKeys (clearMarkers s).markersReg := by
    intro p _
    rw [clearMarkers_reg]
    simp [regKeys]
  rw [foldl_apm_reg hfresh hnd, clearMarkers_reg, clearMarkers_nextHandle]
  simp

theorem updateMarkers_reg (places : List TouristPlace) {s : MapState}
    (h1 : s.mapInstance.isSome = true) (h2 : s.defaultIcon = true)
    (hnd : (places.map TouristPlace.id).Nodup) :
    (updateMarkers true places s).markersReg = buildReg s.nextHandle places := by
  rw [updateMarkers_run places h1 h2]
  have hreg := @foldl_apm_clear_reg places s hnd
  split
  · cases hb : boundsOf (markerLatLngs
        ((places.foldl addPlaceMarker (clearMarkers s)).markersReg)) <;>
      simp [hb, hreg]
  · exact hreg

theorem updateMarkers_onMap (places : List TouristPlace) {s : MapState}
    (h1 : s.mapInstance.isSome = true) (h2 : s.defaultIcon = true)
    (hwf : WF s) :
    (updateMarkers true places s).onMap = buildMarkers s.nextHandle places := by
  rw [updateMarkers_run places h1 h2]
  have hmap : (places.foldl addPlaceMarker (clearMarkers s)).onMap =
      buildMarkers s.nextHandle places := by
    rw [foldl_apm_onMap, clearMarkers_onMap_of_WF hwf, clearMarkers_nextHandle]
    simp
  split
  · cases hb : boundsOf (markerLatLngs
        ((places.foldl addPlaceMarker (clearMarkers s)).markersReg)) <;>
      simp [hb, hmap]
  · exact hmap

theorem updateMarkers_keys_mem (places : List TouristPlace) {s : MapState}
    (h1 : s.mapInstance.isSome = true) (h2 : s.defaultIcon = true) :
    ∀ i, i ∈ regKeys ((updateMarkers true places s).markersReg) ↔
      i ∈ places.map TouristPlace.id := by
  intro i
  rw [updateMarkers_run places h1 h2]
  have hmem : i ∈ regKeys ((places.foldl addPlaceMarker (clearMarkers s)).markersReg) ↔
      i ∈ places.map TouristPlace.id := by
    rw [foldl_apm_keys_mem, clearMarkers_reg]
    simp [regKeys]
  split
  · cases hb : boundsOf (markerLatLngs
        ((places.foldl addPlaceMarker (clearMarkers s)).markersReg)) <;>
      simp [hb, hmem]
  · exact hmem

theorem updateMarkers_keys_nodup (places : List TouristPlace) {s : MapState}
    (h1 : s.mapInstance.isSome = true) (h2 : s.defaultIcon = true) :
    (regKeys ((updateMarkers true places s).markersReg)).Nodup := by
  rw [updateMarkers_run places h1 h2]
  have hnd : (regKeys ((places.foldl addPlaceMarker (clearMarkers s)).markersReg)).Nodup := by
    refine foldl_apm_keys_nodup places _ ?_
    rw [clearMarkers_reg]
    simp [regKeys]
  split
  · cases hb : boundsOf (markerLatLngs
        ((places.foldl addPlaceMarker (clearMarkers s)).markersReg)) <;>
      simp [hb, hnd]
  · exact hnd

theorem updateMarkers_entry_default (places : List TouristPlace) {s : MapState}
    (h1 : s.mapInstance.isSome = true) (h2 : s.defaultIcon = true) :
    ∀ e ∈ (updateMarkers true places s).markersReg,
      e.2.icon = IconKind.defaultIcon ∧ e.2.popupOpen = false := by
  rw [updateMarkers_run places h1 h2]
  have hdef : ∀ e ∈ (places.foldl addPlaceMarker (clearMarkers s)).markersReg,
      e.2.icon = IconKind.defaultIcon ∧ e.2.popupOpen = false := by
    refine foldl_apm_entry_default places _ ?_
    rw [clearMarkers_reg]
    intro e he
    cases he
  split
  · cases hb : boundsOf (markerLatLngs
        ((places.foldl addPlaceMarker (clearMarkers s)).markersReg)) <;>
      simp [hb] <;> exact fun a b hab => hdef (a, b) hab
  · exact hdef

theorem updateMarkers_instance_empty {s : MapState}
    (h1 : s.mapInstance.isSome = true) (h2 : s.defaultIcon = true) :
    (updateMarkers true [] s).mapInstance = s.mapInstance := by
  rw [updateMarkers_run [] h1 h2]
  simp
  rw [clearMarkers_mapInstance]

theorem updateMarkers_instance_nonempty (places : List TouristPlace)
    {s : MapState} (h1 : s.mapInstance.isSome = true)
    (h2 : s.defaultIcon = true) (hne : places ≠ []) :
    ∃ b, boundsOf (markerLatLngs ((updateMarkers true places s).markersReg)) = some b ∧
      (updateMarkers true places s).mapInstance = some (fitBoundsViewport b) := by
  have hlen : places.length > 0 := List.length_pos.mpr hne
  have hlat : markerLatLngs ((places.foldl addPlaceMarker (clearMarkers s)).markersReg) ≠ [] := by
    intro hcon
    have : places.length = 0 := by
      have h3 : (markerLatLngs ((places.foldl addPlaceMarker (clearMarkers s)).markersReg)).length = 0 := by
        rw [hcon]; rfl
      unfold markerLatLngs at h3
      rw [List.length_map] at h3
      have h4 := foldl_apm_keys_mem places (clearMarkers s)
      rcases places with _ | ⟨p, ps⟩
      · rfl
      · exfalso
        have h5 := (h4 p.id).mpr (by right; simp)
        have h6 := List.length_eq_zero.mp h3
        rw [mem_regKeys] at h5
        rcases h5 with ⟨e, he, _⟩
        rw [h6] at he
        cases he
    omega
  obtain ⟨b, hb⟩ := boundsOf_isSome hlat
  refine ⟨b, ?_, ?_⟩ <;>
    rw [updateMarkers_run places h1 h2, if_pos hlen] <;>
      simp [hb]

/-! ### Highlight-pass lemmas -/

theorem fst_highlightUpd (h : String) (m' : Marker) (e : String × Marker) :
    (if e.1 = h then (h, m') else e).1 = e.1 := by
  by_cases he : e.1 = h <;> simp [he]

theorem regKeys_map_highlightUpd (h : String) (m' : Marker)
    (reg : List (String × Marker)) :
    regKeys (reg.map (fun e => if e.1 = h then (h, m') else e)) = regKeys reg := by
  unfold regKeys
  rw [List.map_map]
  exact List.map_congr_left (fun e _ => fst_highlightUpd h m' e)

theorem highlight_keys (hov : Option String) (s : MapState) :
    regKeys ((highlightPass hov s).markersReg) = regKeys s.markersReg := by
  cases hov with
  | none => simp [highlightPass, regKeys_resetReg]
  | some h =>
    cases hf : regFind (resetReg (some h) s.markersReg) h with
    | none => simp [highlightPass, hf, regKeys_resetReg]
    | some m =>
      simp [highlightPass, hf, regKeys_map_highlightUpd, regKeys_resetReg]

theorem highlight_onMap (hov : Option String) (s : MapState) :
    (highlightPass hov s).onMap = s.onMap := by
  cases hov with
  | none => simp [highlightPass]
  | some h =>
    cases hf : regFind (resetReg (some h) s.markersReg) h with
    | none => simp [highlightPass, hf]
    | some m => simp [highlightPass, hf]

theorem resetEntry_of_ne {hov : Option String} {e : String × Marker}
    (h : some e.1 ≠ hov) :
    resetEntry hov e =
      (e.1, { e.2 with icon := IconKind.defaultIcon, popupOpen := false }) := by
  unfold resetEntry
  rw [if_pos h]

theorem highlight_found_branch {h : String} {s : MapState}
    (hmem : h ∈ regKeys s.markersReg) :
    ∃ m, regFind (resetReg (some h) s.markersReg) h = some m ∧
      highlightPass (some h) s =
        { s with
          markersReg := (resetReg (some h) s.markersReg).map
            (fun e => if e.1 = h then
              (h, { m with icon := IconKind.highlighted, popupOpen := true })
            else e),
          mapInstance := s.mapInstance.map
            (fun v => { v with center := CenterVal.coord m.lat m.lng }) } := by
  have hmem1 : h ∈ regKeys (resetReg (some h) s.markersReg) := by
    rw [regKeys_resetReg]
    exact hmem
  obtain ⟨e, he, hfst⟩ := mem_regKeys.mp hmem1
  have hsome : ((resetReg (some h) s.markersReg).find?
      (fun x => x.1 == h)).isSome := by
    rw [List.find?_isSome]
    exact ⟨e, he, by simp [hfst]⟩
  obtain ⟨e1, hf⟩ := Option.isSome_iff_exists.mp hsome
  refine ⟨e1.2, ?_, ?_⟩
  · unfold regFind
    rw [hf]
    rfl
  · have hrf : regFind (resetReg (some h) s.markersReg) h = some e1.2 := by
      unfold regFind
      rw [hf]
      rfl
    simp [highlightPass, hrf]

theorem highlight_mem_ne (hov : Option String) (s : MapState) :
    ∀ e ∈ (highlightPass hov s).markersReg, some e.1 ≠ hov →
      e.2.icon = IconKind.defaultIcon ∧ e.2.popupOpen = false := by
  intro e he hne
  cases hov with
  | none =>
    simp only [highlightPass] at he
    rcases List.mem_map.mp he with ⟨e0, _, heq⟩
    rw [resetEntry_of_ne (by simp)] at heq
    rw [← heq]
    exact ⟨rfl, rfl⟩
  | some h =>
    have hne' : e.1 ≠ h := fun hc => hne (by rw [hc])
    cases hf : regFind (resetReg (some h) s.markersReg) h with
    | none =>
      simp only [highlightPass, hf] at he
      rcases List.mem_map.mp he with ⟨e0, _, heq⟩
      have h0 : e0.1 ≠ h := by
        intro hc
        apply hne'
        rw [← heq, resetEntry_fst, hc]
      rw [resetEntry_of_ne (by simp [h0])] at heq
      rw [← heq]
      exact ⟨rfl, rfl⟩
    | some m =>
      simp only [highlightPass, hf] at he
      rcases List.mem_map.mp he with ⟨e1, he1, hphi⟩
      by_cases h1 : e1.1 = h
      · rw [if_pos h1] at hphi
        exact absurd (by rw [← hphi]) hne'
      · rw [if_neg h1] at hphi
        rcases List.mem_map.mp (hphi ▸ he1) with ⟨e0, _, heq⟩
        have h0 : e0.1 ≠ h := by
          intro hc
          apply h1
          rw [← hphi] at heq
          rw [← heq, resetEntry_fst, hc]
        rw [resetEntry_of_ne (by simp [h0])] at heq
        rw [← heq]
        exact ⟨rfl, rfl⟩

theorem highlight_mem_eq {h : String} {s : MapState} :
    ∀ e ∈ (highlightPass (some h) s).markersReg, e.1 = h →
      e.2.icon = IconKind.highlighted ∧ e.2.popupOpen = true ∧
      (highlightPass (some h) s).mapInstance =
        s.mapInstance.map
          (fun v => { v with center := CenterVal.coord e.2.lat e.2.lng }) := by
  intro e he hfst
  have hkey : h ∈ regKeys s.markersReg := by
    rw [← highlight_keys (some h) s]
    exact mem_regKeys.mpr ⟨e, he, hfst⟩
  obtain ⟨m, hfind, heq⟩ := highlight_found_branch hkey
  rw [heq] at he
  rcases List.mem_map.mp he with ⟨e1, _, hphi⟩
  by_cases h1 : e1.1 = h
  · rw [if_pos h1] at hphi
    rw [← hphi]
    refine ⟨rfl, rfl, ?_⟩
    rw [heq]
  · rw [if_neg h1] at hphi
    exact absurd (hphi ▸ hfst) h1

theorem countP_fst_eq_one {reg : List (String × Marker)} {h : String}
    (hnd : (regKeys reg).Nodup) (hmem : h ∈ regKeys reg) :
    reg.countP (fun e => decide (e.1 = h)) = 1 := by
  induction reg with
  | nil => cases hmem
  | cons a as ih =>
    have hcons : regKeys (a :: as) = a.1 :: regKeys as := rfl
    rw [hcons] at hnd
    have hnotin : a.1 ∉ regKeys as := (List.nodup_cons.mp hnd).1
    have hnd2 : (regKeys as).Nodup := (List.nodup_cons.mp hnd).2
    by_cases hfst : a.1 = h
    · rw [List.countP_cons_of_pos _ _ (by simp [hfst])]
      have hzero : as.countP (fun e => decide (e.1 = h)) = 0 := by
        rw [List.countP_eq_zero]
        intro e he
        simp only [decide_eq_true_eq]
        intro hc
        apply hnotin
        rw [hfst]
        exact mem_regKeys.mpr ⟨e, he, hc⟩
      rw [hzero]
    · rw [List.countP_cons_of_neg _ _ (by simp [hfst])]
      refine ih hnd2 ?_
      rcases mem_regKeys.mp hmem with ⟨e, he, hfste⟩
      rcases List.mem_cons.mp he with rfl | he2
      · exact absurd hfste hfst
      · exact mem_regKeys.mpr ⟨e, he2, hfste⟩

theorem highlight_count_one {h : String} {s : MapState}
    (hnd : (regKeys s.markersReg).Nodup) (hkey : h ∈ regKeys s.markersReg) :
    ((highlightPass (some h) s).markersReg).countP
      (fun e => decide (e.2.icon = IconKind.highlighted)) = 1 := by
  obtain ⟨m, hfind, heq⟩ := highlight_found_branch hkey
  rw [heq]
  show ((resetReg (some h) s.markersReg).map _).countP _ = 1
  rw [List.countP_map]
  have hcongr : ∀ e1 ∈ resetReg (some h) s.markersReg,
      (((fun e => decide (e.2.icon = IconKind.highlighted)) ∘
        (fun e => if e.1 = h then
          (h, { m with icon := IconKind.highlighted, popupOpen := true })
        else e)) e1) = true ↔ (fun e1 => decide (e1.1 = h)) e1 = true := by
    intro e1 he1
    by_cases h1 : e1.1 = h
    · simp [h1]
    · simp only [Function.comp, if_neg h1]
      rcases List.mem_map.mp he1 with ⟨e0, _, heq0⟩
      have h0 : e0.1 ≠ h := by
        intro hc
        apply h1
        rw [← heq0, resetEntry_fst, hc]
      rw [resetEntry_of_ne (by simp [h0])] at heq0
      rw [← heq0]
      simp [h0]
  rw [List.countP_congr hcongr]
  refine countP_fst_eq_one ?_ ?_
  · rw [regKeys_resetReg]
    exact hnd
  · rw [regKeys_resetReg]
    exact hkey

theorem highlight_nomatch {hov : Option String} {s : MapState}
    (h : hov = none ∨ ∃ h0, hov = some h0 ∧ h0 ∉ regKeys s.markersReg) :
    (∀ e ∈ (highlightPass hov s).markersReg,
      e.2.icon = IconKind.defaultIcon ∧ e.2.popupOpen = false) ∧
    (highlightPass hov s).mapInstance = s.mapInstance := by
  rcases h with rfl | ⟨h0, rfl, hnot⟩
  · constructor
    · intro e he
      exact highlight_mem_ne none s e he (by simp)
    · simp [highlightPass]
  · have hf : regFind (resetReg (some h0) s.markersReg) h0 = none := by
      unfold regFind
      rw [List.find?_eq_none.mpr]
      · rfl
      · intro e he
        simp only [beq_iff_eq]
        intro hc
        apply hnot
        rw [← regKeys_resetReg (some h0) s.markersReg]
        exact mem_regKeys.mpr ⟨e, he, hc⟩
    constructor
    · intro e he
      refine highlight_mem_ne (some h0) s e he ?_
      simp only [Ne, Option.some_inj]
      intro hc
      apply hnot
      rw [← highlight_keys (some h0) s] at *
      exact mem_regKeys.mpr ⟨e, he, hc⟩
    · simp [highlightPass, hf]

/-! ### Well-formedness preservation -/

theorem find?_fst_eq_of_nodup {reg : List (String × Marker)}
    {e : String × Marker} {h : String} (hnd : (regKeys reg).Nodup)
    (he : e ∈ reg) (hfst : e.1 = h) :
    reg.find? (fun x => x.1 == h) = some e := by
  induction reg with
  | nil => cases he
  | cons a as ih =>
    have hcons : regKeys (a :: as) = a.1 :: regKeys as := rfl
    rw [hcons] at hnd
    have hnotin := (List.nodup_cons.mp hnd).1
    have hnd2 := (List.nodup_cons.mp hnd).2
    rcases List.mem_cons.mp he with rfl | he2
    · rw [List.find?_cons_of_pos]
      simp [hfst]
    · have ha : ¬ (a.1 == h) = true := by
        simp only [beq_iff_eq]
        intro hc
        apply hnotin
        rw [hc, ← hfst]
        exact mem_regKeys.mpr ⟨e, he2, rfl⟩
      have hskip : List.find? (fun x => x.1 == h) (a :: as) =
          List.find? (fun x => x.1 == h) as :=
        List.find?_cons_of_neg as ha
      rw [hskip]
      exact ih hnd2 he2

theorem pairs_values_resetReg (hov : Option String)
    (reg : List (String × Marker)) :
    markerPairs (regValues (resetReg hov reg)) =
      markerPairs (regValues reg) := by
  unfold markerPairs regValues resetReg
  rw [List.map_map, List.map_map, List.map_map]
  refine List.map_congr_left (fun e _ => ?_)
  by_cases hc : some e.1 ≠ hov <;> simp [resetEntry, hc]

theorem pairs_values_highlight {hov : Option String} {s : MapState}
    (hnd : (regKeys s.markersReg).Nodup) :
    markerPairs (regValues ((highlightPass hov s).markersReg)) =
      markerPairs (regValues s.markersReg) := by
  cases hov with
  | none => simp [highlightPass]; exact pairs_values_resetReg none s.markersReg
  | some h =>
    by_cases hkey : h ∈ regKeys s.markersReg
    · obtain ⟨m, hfind, heq⟩ := highlight_found_branch hkey
      rw [heq]
      show markerPairs (regValues ((resetReg (some h) s.markersReg).map _)) = _
      rw [← pairs_values_resetReg (some h) s.markersReg]
      simp only [markerPairs, regValues, List.map_map]
      refine List.map_congr_left (fun e1 he1 => ?_)
      by_cases h1 : e1.1 = h
      · obtain ⟨ef, hef, hef2⟩ : ∃ ef, (resetReg (some h) s.markersReg).find?
            (fun x => x.1 == h) = some ef ∧ ef.2 = m := by
          unfold regFind at hfind
          rcases Option.map_eq_some'.mp hfind with ⟨ef, h3, h4⟩
          exact ⟨ef, h3, h4⟩
        have huniq : (resetReg (some h) s.markersReg).find?
            (fun x => x.1 == h) = some e1 := by
          refine find?_fst_eq_of_nodup ?_ he1 h1
          rw [regKeys_resetReg]
          exact hnd
        have : e1 = ef := by
          rw [huniq] at hef
          exact Option.some_inj.mp hef
        simp [h1, ← hef2, ← this]
      · simp [h1]
    · have hf : regFind (resetReg (some h) s.markersReg) h = none := by
        unfold regFind
        rw [List.find?_eq_none.mpr]
        · rfl
        · intro e he
          simp only [beq_iff_eq]
          intro hc
          apply hkey
          rw [← regKeys_resetReg (some h) s.markersReg]
          exact mem_regKeys.mpr ⟨e, he, hc⟩
      simp only [highlightPass, hf]
      exact pairs_values_resetReg (some h) s.markersReg

theorem WF_highlightPass (hov : Option String) {s : MapState} (h : WF s) :
    WF (highlightPass hov s) := by
  refine ⟨?_, by rw [highlight_keys]; exact h.2⟩
  rw [highlight_onMap, pairs_values_highlight h.2]
  exact h.1

theorem WF_updateMarkers (places : List TouristPlace) {s : MapState}
    (h1 : s.mapInstance.isSome = true) (h2 : s.defaultIcon = true)
    (hwf : WF s) (hnd : (places.map TouristPlace.id).Nodup) :
    WF (updateMarkers true places s) := by
  refine ⟨?_, updateMarkers_keys_nodup places h1 h2⟩
  rw [updateMarkers_onMap places h1 h2 hwf,
    updateMarkers_reg places h1 h2 hnd, buildReg_values]

theorem WF_initializeMap (importOk mounted containerPresent : Bool)
    (clat clng : Rat) (z : Nat) {s : MapState} (hwf : WF s) :
    WF (initializeMap importOk mounted containerPresent clat clng z s) := by
  unfold initializeMap
  split
  · exact hwf
  · split
    · exact hwf
    · exact hwf

/-! ### Itinerary-store lemmas -/

theorem mem_ids_itinAdd {it : List TouristPlace} {p : TouristPlace}
    {i : String} :
    i ∈ (itinAdd it p).map TouristPlace.id ↔
      i ∈ it.map TouristPlace.id ∨ i = p.id := by
  unfold itinAdd
  split
  · rename_i hmem
    constructor
    · exact Or.inl
    · rintro (h | rfl)
      · exact h
      · exact hmem
  · simp

theorem mem_ids_itinRemove {it : List TouristPlace} {pid i : String} :
    i ∈ (itinRemove it pid).map TouristPlace.id ↔
      i ∈ it.map TouristPlace.id ∧ i ≠ pid := by
  unfold itinRemove
  constructor
  · intro h
    rcases List.mem_map.mp h with ⟨q, hq, rfl⟩
    rcases List.mem_filter.mp hq with ⟨hq1, hq2⟩
    exact ⟨List.mem_map_of_mem _ hq1, by simpa using hq2⟩
  · rintro ⟨h1, h2⟩
    rcases List.mem_map.mp h1 with ⟨q, hq, rfl⟩
    exact List.mem_map_of_mem _ (List.mem_filter.mpr ⟨hq, by simpa using h2⟩)

theorem itinAdd_noop {it : List TouristPlace} {p : TouristPlace}
    (h : p.id ∈ it.map TouristPlace.id) : itinAdd it p = it := by
  unfold itinAdd
  rw [if_pos h]

theorem mem_foldl_applyOp (ops : List ItinOp) :
    ∀ (it : List TouristPlace) (i : String),
      i ∈ (ops.foldl applyOp it).map TouristPlace.id ↔
        trackFrom (decide (i ∈ it.map TouristPlace.id)) ops i = true := by
  induction ops with
  | nil =>
    intro it i
    simp [trackFrom]
  | cons op ops ih =>
    intro it i
    rw [List.foldl_cons, ih]
    have hstep : trackFrom (decide (i ∈ it.map TouristPlace.id)) (op :: ops) i =
        trackFrom (trackStep i (decide (i ∈ it.map TouristPlace.id)) op) ops i := rfl
    rw [hstep]
    have hdec : decide (i ∈ (applyOp it op).map TouristPlace.id) =
        trackStep i (decide (i ∈ it.map TouristPlace.id)) op := by
      cases op with
      | add p =>
        show decide (i ∈ (itinAdd it p).map TouristPlace.id) = _
        simp only [trackStep]
        by_cases hpi : p.id = i
        · rw [if_pos hpi]
          subst hpi
          rw [decide_eq_true_eq]
          exact mem_ids_itinAdd.mpr (Or.inr rfl)
        · rw [if_neg hpi]
          have hne : i ≠ p.id := Ne.symm hpi
          rw [decide_eq_decide, mem_ids_itinAdd]
          constructor
          · rintro (h | rfl)
            · exact h
            · exact absurd rfl hne
          · exact Or.inl
      | remove pid =>
        show decide (i ∈ (itinRemove it pid).map TouristPlace.id) = _
        simp only [trackStep]
        by_cases hpi : pid = i
        · rw [if_pos hpi]
          subst hpi
          rw [decide_eq_false_iff_not, mem_ids_itinRemove]
          rintro ⟨_, hcon⟩
          exact hcon rfl
        · rw [if_neg hpi]
          have hne : i ≠ pid := Ne.symm hpi
          rw [decide_eq_decide, mem_ids_itinRemove]
          constructor
          · exact And.left
          · exact fun h => ⟨h, hne⟩
    rw [hdec]

theorem mem_runOps (ops : List ItinOp) (i : String) :
    i ∈ (runOps ops).map TouristPlace.id ↔ trackMem ops i = true := by
  unfold runOps trackMem
  rw [mem_foldl_applyOp]
  have : decide (i ∈ (([] : List TouristPlace)).map TouristPlace.id) = false := by
    simp
  rw [this]

theorem nodup_ids_foldl (ops : List ItinOp) :
    ∀ it : List TouristPlace, (it.map TouristPlace.id).Nodup →
      ((ops.foldl applyOp it).map TouristPlace.id).Nodup := by
  induction ops with
  | nil => intro it h; exact h
  | cons op ops ih =>
    intro it h
    rw [List.foldl_cons]
    refine ih _ ?_
    cases op with
    | add p =>
      show ((itinAdd it p).map TouristPlace.id).Nodup
      unfold itinAdd
      split
      · exact h
      · rename_i hmem
        simp [List.nodup_append, h, hmem]
    | remove pid =>
      show ((itinRemove it pid).map TouristPlace.id).Nodup
      unfold itinRemove
      refine List.Nodup.sublist ?_ h
      exact List.Sublist.map _ (List.filter_sublist it)

theorem nodup_ids_runOps (ops : List ItinOp) :
    ((runOps ops).map TouristPlace.id).Nodup :=
  nodup_ids_foldl ops [] (by simp)

/-! ### Claim theorems -/

/-- C1: after a marker-synchronization pass on a well-formed map state
whose map instance and default icon exist, run on a place list without
duplicate identifiers, the registry's key set equals the identifier set
of the place list, the keys are duplicate-free (every place has exactly
one marker), every marker on the map surface belongs to a place of the
list (no marker for a removed place remains registered or on the map),
and there is exactly one on-map marker per place. -/
theorem C1_registry_sync (places : List TouristPlace) (s : MapState)
    (hwf : WF s)
    (h1 : s.mapInstance.isSome = true) (h2 : s.defaultIcon = true) :
    (∀ i, i ∈ regKeys ((updateMarkers true places s).markersReg) ↔
        i ∈ places.map TouristPlace.id) ∧
    (regKeys ((updateMarkers true places s).markersReg)).Nodup ∧
    (∀ m ∈ (updateMarkers true places s).onMap,
        m.placeId ∈ places.map TouristPlace.id) ∧
    (updateMarkers true places s).onMap.length = places.length := by
  refine ⟨updateMarkers_keys_mem places h1 h2,
    updateMarkers_keys_nodup places h1 h2, ?_, ?_⟩
  · rw [updateMarkers_onMap places h1 h2 hwf]
    intro m hm
    rw [← buildMarkers_placeIds s.nextHandle places]
    exact List.mem_map_of_mem _ hm
  · rw [updateMarkers_onMap places h1 h2 hwf, buildMarkers_length]

/-- C1 witness: the synchronization invariant instantiated on the
freshly initialized map state and the two sample places. -/
theorem C1_registry_sync_witness :
    (WF readyMapState ∧
      readyMapState.mapInstance.isSome = true ∧
      readyMapState.defaultIcon = true) ∧
    ((∀ i, i ∈ regKeys ((updateMarkers true [placeP1, placeP2]
          readyMapState).markersReg) ↔
        i ∈ ([placeP1, placeP2]).map TouristPlace.id) ∧
      (regKeys ((updateMarkers true [placeP1, placeP2]
          readyMapState).markersReg)).Nodup ∧
      (∀ m ∈ (updateMarkers true [placeP1, placeP2] readyMapState).onMap,
          m.placeId ∈ ([placeP1, placeP2]).map TouristPlace.id) ∧
      (updateMarkers true [placeP1, placeP2] readyMapState).onMap.length =
        ([placeP1, placeP2] : List TouristPlace).length) :=
  ⟨⟨by decide, by decide, by decide⟩,
    C1_registry_sync [placeP1, placeP2] readyMapState
      (by decide) (by decide) (by decide)⟩

/-- C2 counterexample: for the sequence add p1, remove p1, add p1, the
resulting identifier set is p1, while the set of added identifiers
minus the removed identifiers is empty — so the claimed equality fails
for this concrete operation sequence. -/
theorem C2_counterexample :
    ¬ (∀ i, i ∈ (runOps cexOps).map TouristPlace.id ↔
        (i ∈ addsOf cexOps ∧ i ∉ removesOf cexOps)) := by
  intro hclaim
  have h1 : "p1" ∈ (runOps cexOps).map TouristPlace.id := by decide
  exact ((hclaim "p1").mp h1).2 (by decide)

/-- C2 (amended): for every sequence of add / remove operations on an
itinerary that starts empty, an identifier is in the result iff the last
operation of the sequence touching it is an add (which coincides with
adds-minus-removes whenever no identifier is re-added after being
removed); the result never contains duplicate identifiers; and adding a
place whose identifier is already present has no effect and is not an
error. -/
theorem C2_itinerary_ops (ops : List ItinOp) (i : String) :
    (i ∈ (runOps ops).map TouristPlace.id ↔ trackMem ops i = true) ∧
    ((runOps ops).map TouristPlace.id).Nodup ∧
    (∀ (it : List TouristPlace) (p : TouristPlace),
      p.id ∈ it.map TouristPlace.id → itinAdd it p = it) :=
  ⟨mem_runOps ops i, nodup_ids_runOps ops, fun _ _ h => itinAdd_noop h⟩

/-- C2 witness: the amended characterization instantiated on the
re-adding sequence and the sample place. -/
theorem C2_itinerary_ops_witness :
    ("p1" ∈ (runOps cexOps).map TouristPlace.id ↔
      trackMem cexOps "p1" = true) ∧
    ((runOps cexOps).map TouristPlace.id).Nodup ∧
    (placeP1.id ∈ ([placeP1]).map TouristPlace.id →
      itinAdd [placeP1] placeP1 = [placeP1]) :=
  ⟨(C2_itinerary_ops cexOps "p1").1, (C2_itinerary_ops cexOps "p1").2.1,
    (C2_itinerary_ops cexOps "p1").2.2 [placeP1] placeP1⟩

/-- C3: when the hover-highlight pass runs on a registry without
duplicate keys, every registered marker whose identifier differs from
the hover selection gets the default icon and a closed popup; if the
selection names a registered marker, that marker gets the highlighted
icon and an open popup, the viewport is panned to its coordinate with
the zoom untouched, and exactly one marker carries the highlighted
icon; if the selection is null or matches no marker, no marker is
highlighted and the viewport is unchanged. -/
theorem C3_highlight (hov : Option String) (s : MapState)
    (hnd : (regKeys s.markersReg).Nodup) :
    (∀ e ∈ (highlightPass hov s).markersReg, some e.1 ≠ hov →
        e.2.icon = IconKind.defaultIcon ∧ e.2.popupOpen = false) ∧
    (∀ h, hov = some h → h ∈ regKeys s.markersReg →
        (∀ e ∈ (highlightPass hov s).markersReg, e.1 = h →
          e.2.icon = IconKind.highlighted ∧ e.2.popupOpen = true ∧
          (highlightPass hov s).mapInstance =
            s.mapInstance.map (fun v =>
              { v with center := CenterVal.coord e.2.lat e.2.lng })) ∧
        ((highlightPass hov s).markersReg.countP
          (fun e => decide (e.2.icon = IconKind.highlighted))) = 1) ∧
    ((hov = none ∨ ∃ h, hov = some h ∧ h ∉ regKeys s.markersReg) →
        (∀ e ∈ (highlightPass hov s).markersReg,
          e.2.icon = IconKind.defaultIcon) ∧
        (highlightPass hov s).mapInstance = s.mapInstance) := by
  refine ⟨highlight_mem_ne hov s, ?_, ?_⟩
  · rintro h rfl hkey
    exact ⟨highlight_mem_eq, highlight_count_one hnd hkey⟩
  · intro hcase
    have hnm := highlight_nomatch hcase
    exact ⟨fun e he => (hnm.1 e he).1, hnm.2⟩

/-- C3 witness: the highlight pass instantiated on the two-place state
with the first place hovered. -/
theorem C3_highlight_witness :
    (regKeys twoPlaceState.markersReg).Nodup ∧
    ((∀ e ∈ (highlightPass (some "p1") twoPlaceState).markersReg,
        some e.1 ≠ some "p1" →
        e.2.icon = IconKind.defaultIcon ∧ e.2.popupOpen = false) ∧
    (∀ h, some "p1" = some h → h ∈ regKeys twoPlaceState.markersReg →
        (∀ e ∈ (highlightPass (some "p1") twoPlaceState).markersReg, e.1 = h →
          e.2.icon = IconKind.highlighted ∧ e.2.popupOpen = true ∧
          (highlightPass (some "p1") twoPlaceState).mapInstance =
            twoPlaceState.mapInstance.map (fun v =>
              { v with center := CenterVal.coord e.2.lat e.2.lng })) ∧
        ((highlightPass (some "p1") twoPlaceState).markersReg.countP
          (fun e => decide (e.2.icon = IconKind.highlighted))) = 1) ∧
    ((some "p1" = none ∨ ∃ h, some "p1" = some h ∧
        h ∉ regKeys twoPlaceState.markersReg) →
        (∀ e ∈ (highlightPass (some "p1") twoPlaceState).markersReg,
          e.2.icon = IconKind.defaultIcon) ∧
        (highlightPass (some "p1") twoPlaceState).mapInstance =
          twoPlaceState.mapInstance)) :=
  ⟨by decide, C3_highlight (some "p1") twoPlaceState (by decide)⟩

/-- C4: the hover-highlight pass is scheduled on the next animation
frame rather than run synchronously, and a pending scheduled pass is
canceled by a new hover change: after hovering p1 and then p2 before
the frame fires, the map state is untouched until the frame (so no
intermediate highlight of p1 is observable), only the p2 pass is
pending, the frame runs exactly the p2 highlight pass, and afterwards
the marker registered under p1 carries the default icon. -/
theorem C4_hover_debounce (c : ComponentState) (p1 p2 : String)
    (hg : hoverGuard c.ms = true) (hne : p1 ≠ p2) :
    (stepEvent (MapEvent.hoverChange (some p1)) c).ms = c.ms ∧
    (stepEvent (MapEvent.hoverChange (some p1)) c).pendingFrame =
      some (some p1) ∧
    (stepEvent (MapEvent.hoverChange (some p2))
      (stepEvent (MapEvent.hoverChange (some p1)) c)).ms = c.ms ∧
    (stepEvent (MapEvent.hoverChange (some p2))
      (stepEvent (MapEvent.hoverChange (some p1)) c)).pendingFrame =
      some (some p2) ∧
    (stepEvent MapEvent.frameFire (stepEvent (MapEvent.hoverChange (some p2))
      (stepEvent (MapEvent.hoverChange (some p1)) c))).ms =
      highlightPass (some p2) c.ms ∧
    (∀ e ∈ (stepEvent MapEvent.frameFire
        (stepEvent (MapEvent.hoverChange (some p2))
          (stepEvent (MapEvent.hoverChange (some p1)) c))).ms.markersReg,
      e.1 = p1 → e.2.icon = IconKind.defaultIcon) := by
  have hc1 : stepEvent (MapEvent.hoverChange (some p1)) c =
      { c with hovered := some p1, pendingFrame := some (some p1) } := by
    simp [stepEvent, hg]
  have hc2 : stepEvent (MapEvent.hoverChange (some p2))
      { c with hovered := some p1, pendingFrame := some (some p1) } =
      { c with hovered := some p2, pendingFrame := some (some p2) } := by
    simp [stepEvent, hg]
  have hc3 : stepEvent MapEvent.frameFire
      { c with hovered := some p2, pendingFrame := some (some p2) } =
      { c with
        hovered := some p2,
        pendingFrame := none,
        ms := highlightPass (some p2) c.ms } := by
    simp [stepEvent]
  rw [hc1, hc2, hc3]
  refine ⟨rfl, rfl, rfl, rfl, rfl, ?_⟩
  intro e he hfst
  refine (highlight_mem_ne (some p2) c.ms e he ?_).1
  simp only [Ne, Option.some_inj]
  rw [hfst]
  exact hne

/-- C4 witness: the debounce scenario instantiated on the rendered
two-place component with p1 hovered and then p2. -/
theorem C4_hover_debounce_witness :
    (hoverGuard readyComponent.ms = true ∧ "p1" ≠ "p2") ∧
    ((stepEvent (MapEvent.hoverChange (some "p1")) readyComponent).ms =
      readyComponent.ms ∧
    (stepEvent (MapEvent.hoverChange (some "p1"))
        readyComponent).pendingFrame = some (some "p1") ∧
    (stepEvent (MapEvent.hoverChange (some "p2"))
      (stepEvent (MapEvent.hoverChange (some "p1")) readyComponent)).ms =
      readyComponent.ms ∧
    (stepEvent (MapEvent.hoverChange (some "p2"))
      (stepEvent (MapEvent.hoverChange (some "p1"))
        readyComponent)).pendingFrame = some (some "p2") ∧
    (stepEvent MapEvent.frameFire (stepEvent (MapEvent.hoverChange (some "p2"))
      (stepEvent (MapEvent.hoverChange (some "p1")) readyComponent))).ms =
      highlightPass (some "p2") readyComponent.ms ∧
    (∀ e ∈ (stepEvent MapEvent.frameFire
        (stepEvent (MapEvent.hoverChange (some "p2"))
          (stepEvent (MapEvent.hoverChange (some "p1"))
            readyComponent))).ms.markersReg,
      e.1 = "p1" → e.2.icon = IconKind.defaultIcon)) :=
  ⟨⟨by decide, by decide⟩,
    C4_hover_debounce readyComponent "p1" "p2" (by decide) (by decide)⟩

/-- C5: during a marker-synchronization pass on a well-formed,
initialized map state, if the place list is non-empty the viewport is
set to fit the bounding box of the new markers with the fixed 50-pixel
padding, and that box covers every new marker's coordinate; if the
place list is empty, no marker exists afterwards and the viewport is
left unchanged. -/
theorem C5_viewport_fit (places : List TouristPlace) (s : MapState)
    (hwf : WF s)
    (h1 : s.mapInstance.isSome = true) (h2 : s.defaultIcon = true) :
    (places ≠ [] →
      ∃ b, boundsOf (markerLatLngs
          ((updateMarkers true places s).markersReg)) = some b ∧
        (updateMarkers true places s).mapInstance =
          some (fitBoundsViewport b) ∧
        ∀ e ∈ (updateMarkers true places s).markersReg,
          boundsCovers b (e.2.lat, e.2.lng)) ∧
    (places = [] →
      (updateMarkers true places s).mapInstance = s.mapInstance ∧
      (updateMarkers true places s).markersReg = [] ∧
      (updateMarkers true places s).onMap = []) := by
  constructor
  · intro hne
    obtain ⟨b, hb, hinst⟩ := updateMarkers_instance_nonempty places h1 h2 hne
    refine ⟨b, hb, hinst, ?_⟩
    intro e he
    refine boundsOf_covers hb (e.2.lat, e.2.lng) ?_
    exact List.mem_map_of_mem _ he
  · rintro rfl
    refine ⟨updateMarkers_instance_empty h1 h2, ?_, ?_⟩
    · rw [updateMarkers_reg [] h1 h2 (by simp)]
      rfl
    · rw [updateMarkers_onMap [] h1 h2 hwf]
      rfl

/-- C5 witness: the viewport-fit behaviour instantiated on the freshly
initialized map state and the two sample places. -/
theorem C5_viewport_fit_witness :
    (WF readyMapState ∧ readyMapState.mapInstance.isSome = true ∧
      readyMapState.defaultIcon = true) ∧
    ((([placeP1, placeP2] : List TouristPlace) ≠ [] →
      ∃ b, boundsOf (markerLatLngs
          ((updateMarkers true [placeP1, placeP2]
            readyMapState).markersReg)) = some b ∧
        (updateMarkers true [placeP1, placeP2] readyMapState).mapInstance =
          some (fitBoundsViewport b) ∧
        ∀ e ∈ (updateMarkers true [placeP1, placeP2]
            readyMapState).markersReg,
          boundsCovers b (e.2.lat, e.2.lng)) ∧
    (([placeP1, placeP2] : List TouristPlace) = [] →
      (updateMarkers true [placeP1, placeP2] readyMapState).mapInstance =
        readyMapState.mapInstance ∧
      (updateMarkers true [placeP1, placeP2] readyMapState).markersReg = [] ∧
      (updateMarkers true [placeP1, placeP2] readyMapState).onMap = [])) :=
  ⟨⟨by decide, by decide, by decide⟩,
    C5_viewport_fit [placeP1, placeP2] readyMapState
      (by decide) (by decide) (by decide)⟩

/-- C6: a marker-synchronization attempt before initialization
completes (flag unset, or map instance / default icon missing) is a
no-op leaving the whole state unchanged; once initialization finishes,
the retried update synchronizes the registry keys with the place-list
identifiers; and initialization is a no-op while the instance is
already live (guarded by the is-initialized flag). -/
theorem C6_init_guard (places : List TouristPlace) (s : MapState)
    (clat clng : Rat) (z : Nat) (importOk : Bool) :
    (s.isMapInitialized = false → tryUpdateMarkers importOk places s = s) ∧
    (s.mapInstance = none ∨ s.defaultIcon = false →
      updateMarkers importOk places s = s) ∧
    (s.isMapInitialized = true →
      initializeMap true true true clat clng z s = s) ∧
    (s.isMapInitialized = false →
      (initializeMap true true true clat clng z s).isMapInitialized = true ∧
      ∀ i, i ∈ regKeys ((tryUpdateMarkers true places
          (initializeMap true true true clat clng z s)).markersReg) ↔
        i ∈ places.map TouristPlace.id) := by
  refine ⟨?_, updateMarkers_guard, ?_, ?_⟩
  · intro h
    unfold tryUpdateMarkers
    rw [h]
    simp
  · intro h
    simp [initializeMap, h]
  · intro h
    have hs1 : initializeMap true true true clat clng z s =
        { s with
          defaultIcon := true,
          highlightedIcon := true,
          mapInstance := some (initialViewport clat clng z),
          isMapInitialized := true } := by
      simp [initializeMap, h]
    rw [hs1]
    refine ⟨rfl, ?_⟩
    have htry : tryUpdateMarkers true places
        { s with
          defaultIcon := true,
          highlightedIcon := true,
          mapInstance := some (initialViewport clat clng z),
          isMapInitialized := true } =
        updateMarkers true places
        { s with
          defaultIcon := true,
          highlightedIcon := true,
          mapInstance := some (initialViewport clat clng z),
          isMapInitialized := true } := by
      simp [tryUpdateMarkers]
    rw [htry]
    exact updateMarkers_keys_mem places rfl rfl

/-- C6 witness: the guard behaviour instantiated on the fresh
(uninitialized) component state and one sample place. -/
theorem C6_init_guard_witness :
    (emptyMapState.isMapInitialized = false →
      tryUpdateMarkers true [placeP1] emptyMapState = emptyMapState) ∧
    (emptyMapState.mapInstance = none ∨ emptyMapState.defaultIcon = false →
      updateMarkers true [placeP1] emptyMapState = emptyMapState) ∧
    (emptyMapState.isMapInitialized = true →
      initializeMap true true true 23 72 12 emptyMapState = emptyMapState) ∧
    (emptyMapState.isMapInitialized = false →
      (initializeMap true true true 23 72 12
        emptyMapState).isMapInitialized = true ∧
      ∀ i, i ∈ regKeys ((tryUpdateMarkers true [placeP1]
          (initializeMap true true true 23 72 12
            emptyMapState)).markersReg) ↔
        i ∈ ([placeP1]).map TouristPlace.id) :=
  C6_init_guard [placeP1] emptyMapState 23 72 12 true

/-- C7: for every map state — in particular an uninitialized one — a
failed dynamic import during initialization is caught, logged to the
console and surfaced as exactly one error toast, with every other field
unchanged; so on a fresh surface the initialized flag stays unset and
no markers render (the map stays inert).  A failed import during a
marker-synchronization pass (which requires the map instance and the
default icon to exist) is caught and logged to the console with no
toast, and the registry, on-map markers and viewport keep their stale
values; in neither case is any further work scheduled. -/
theorem C7_error_paths (places : List TouristPlace) (s : MapState)
    (mounted containerPresent : Bool) (clat clng : Rat) (z : Nat) :
    initializeMap false mounted containerPresent clat clng z s =
      { s with
        consoleErrors := s.consoleErrors ++ ["Error initializing map:"],
        toasts := s.toasts ++
          [Toast.error "Failed to load map. Please refresh the page."] } ∧
    (initializeMap false mounted containerPresent clat clng z
        s).isMapInitialized = s.isMapInitialized ∧
    (initializeMap false mounted containerPresent clat clng z
        s).markersReg = s.markersReg ∧
    (s.isMapInitialized = false →
      (initializeMap false mounted containerPresent clat clng z
          s).isMapInitialized = false ∧
      (initializeMap false mounted containerPresent clat clng z
          s).onMap = s.onMap) ∧
    (s.mapInstance.isSome = true → s.defaultIcon = true →
      updateMarkers false places s =
        { s with consoleErrors :=
            s.consoleErrors ++ ["Error updating markers:"] } ∧
      (updateMarkers false places s).toasts = s.toasts ∧
      (updateMarkers false places s).markersReg = s.markersReg ∧
      (updateMarkers false places s).onMap = s.onMap ∧
      (updateMarkers false places s).mapInstance = s.mapInstance) := by
  have hini : initializeMap false mounted containerPresent clat clng z s =
      { s with
        consoleErrors := s.consoleErrors ++ ["Error initializing map:"],
        toasts := s.toasts ++
          [Toast.error "Failed to load map. Please refresh the page."] } := by
    simp [initializeMap]
  refine ⟨hini, by rw [hini], by rw [hini], ?_, ?_⟩
  · intro hflag
    constructor
    · rw [hini]
      exact hflag
    · rw [hini]
  · intro h1 h2
    have hupd := @updateMarkers_fail places s h1 h2
    exact ⟨hupd, by rw [hupd], by rw [hupd], by rw [hupd], by rw [hupd]⟩

/-- C7 witness: the initialization-failure path instantiated on the
fresh uninitialized state (flag stays unset, no marker exists) and the
marker-update-failure path on the initialized map state. -/
theorem C7_error_paths_witness :
    (emptyMapState.isMapInitialized = false ∧
      (initializeMap false true true 23 72 12
        emptyMapState).isMapInitialized = false ∧
      (initializeMap false true true 23 72 12
        emptyMapState).markersReg = [] ∧
      (initializeMap false true true 23 72 12 emptyMapState).onMap = [] ∧
      (initializeMap false true true 23 72 12 emptyMapState).toasts =
        [Toast.error "Failed to load map. Please refresh the page."]) ∧
    (readyMapState.mapInstance.isSome = true ∧
      readyMapState.defaultIcon = true ∧
      updateMarkers false [placeP1] readyMapState =
        { readyMapState with consoleErrors :=
            readyMapState.consoleErrors ++ ["Error updating markers:"] } ∧
      (updateMarkers false [placeP1] readyMapState).toasts =
        readyMapState.toasts) :=
  ⟨⟨by decide,
    ((C7_error_paths [placeP1] emptyMapState true true 23 72 12).2.2.2.1
      (by decide)).1,
    (C7_error_paths [placeP1] emptyMapState true true 23 72 12).2.2.1,
    ((C7_error_paths [placeP1] emptyMapState true true 23 72 12).2.2.2.1
      (by decide)).2,
    by rw [(C7_error_paths [placeP1] emptyMapState true true 23 72 12).1]
       rfl⟩,
   ⟨by decide, by decide,
    ((C7_error_paths [placeP1] readyMapState true true 23 72 12).2.2.2.2
      (by decide) (by decide)).1,
    ((C7_error_paths [placeP1] readyMapState true true 23 72 12).2.2.2.2
      (by decide) (by decide)).2.1⟩⟩

/-- C8: the share and download handlers emit an error toast and return
without any change when the itinerary is empty, emit a
feature-not-available toast when it is non-empty, and never modify the
itinerary. -/
theorem C8_share_download (it : List TouristPlace) :
    (it = [] →
      handleShare it =
        (Toast.error "You don\x27t have any places to share", it) ∧
      handleDownload it =
        (Toast.error "You don\x27t have any places to download", it)) ∧
    (it ≠ [] →
      handleShare it =
        (Toast.success "Sharing is not available in the demo", it) ∧
      handleDownload it =
        (Toast.success "Download is not available in the demo", it)) ∧
    (handleShare it).2 = it ∧ (handleDownload it).2 = it := by
  refine ⟨?_, ?_, ?_, ?_⟩
  · rintro rfl
    exact ⟨rfl, rfl⟩
  · intro hne
    have hlen : ¬ it.length = 0 := fun hc => hne (List.length_eq_zero.mp hc)
    unfold handleShare handleDownload
    rw [if_neg hlen, if_neg hlen]
    exact ⟨rfl, rfl⟩
  · unfold handleShare
    split <;> rfl
  · unfold handleDownload
    split <;> rfl

/-- C8 witness: the handler behaviour instantiated on the one-place
itinerary. -/
theorem C8_share_download_witness :
    (([placeP1] : List TouristPlace) = [] →
      handleShare [placeP1] =
        (Toast.error "You don\x27t have any places to share", [placeP1]) ∧
      handleDownload [placeP1] =
        (Toast.error "You don\x27t have any places to download", [placeP1])) ∧
    (([placeP1] : List TouristPlace) ≠ [] →
      handleShare [placeP1] =
        (Toast.success "Sharing is not available in the demo", [placeP1]) ∧
      handleDownload [placeP1] =
        (Toast.success "Download is not available in the demo", [placeP1])) ∧
    (handleShare [placeP1]).2 = [placeP1] ∧
    (handleDownload [placeP1]).2 = [placeP1] :=
  C8_share_download [placeP1]

/-- C9: immediately after a marker-synchronization pass on an
initialized component, every registered marker carries the default icon
(whatever the current hover selection is — rebuilding never replays the
highlight), and the places-change event neither schedules a highlight
pass nor touches the hover selection. -/
theorem C9_rebuild_resets_highlight (c : ComponentState)
    (ps : List TouristPlace) (h1 : c.ms.mapInstance.isSome = true)
    (h2 : c.ms.defaultIcon = true) (h3 : c.ms.isMapInitialized = true) :
    (∀ e ∈ (stepEvent (MapEvent.placesChange ps) c).ms.markersReg,
        e.2.icon = IconKind.defaultIcon) ∧
    (stepEvent (MapEvent.placesChange ps) c).pendingFrame =
      c.pendingFrame ∧
    (stepEvent (MapEvent.placesChange ps) c).hovered = c.hovered := by
  have hms : (stepEvent (MapEvent.placesChange ps) c).ms =
      updateMarkers true ps c.ms := by
    simp [stepEvent, tryUpdateMarkers, h3]
  refine ⟨?_, rfl, rfl⟩
  rw [hms]
  intro e he
  exact (updateMarkers_entry_default ps h1 h2 e he).1

/-- C9 witness: the rebuild behaviour instantiated on the rendered
two-place component while p1 is hovered. -/
theorem C9_rebuild_resets_highlight_witness :
    ((⟨twoPlaceState, some "p1", [placeP1, placeP2], none⟩ :
        ComponentState).ms.mapInstance.isSome = true ∧
      (⟨twoPlaceState, some "p1", [placeP1, placeP2], none⟩ :
        ComponentState).ms.defaultIcon = true ∧
      (⟨twoPlaceState, some "p1", [placeP1, placeP2], none⟩ :
        ComponentState).ms.isMapInitialized = true) ∧
    ((∀ e ∈ (stepEvent (MapEvent.placesChange [placeP1])
        (⟨twoPlaceState, some "p1", [placeP1, placeP2], none⟩ :
          ComponentState)).ms.markersReg,
        e.2.icon = IconKind.defaultIcon) ∧
    (stepEvent (MapEvent.placesChange [placeP1])
        (⟨twoPlaceState, some "p1", [placeP1, placeP2], none⟩ :
          ComponentState)).pendingFrame =
      (⟨twoPlaceState, some "p1", [placeP1, placeP2], none⟩ :
        ComponentState).pendingFrame ∧
    (stepEvent (MapEvent.placesChange [placeP1])
        (⟨twoPlaceState, some "p1", [placeP1, placeP2], none⟩ :
          ComponentState)).hovered =
      (⟨twoPlaceState, some "p1", [placeP1, placeP2], none⟩ :
        ComponentState).hovered) :=
  ⟨⟨by decide, by decide, by decide⟩,
    C9_rebuild_resets_highlight
      (⟨twoPlaceState, some "p1", [placeP1, placeP2], none⟩ : ComponentState)
      [placeP1] (by decide) (by decide) (by decide)⟩

/-- C10: a clear-handler invocation while no confirmation is pending
never clears the itinerary and never calls the store's clear operation;
it only arms the confirmation and schedules the 3000 ms auto-disarm
timeout; the timeout firing disarms without touching the itinerary; and
the store's clear operation is invoked exactly when the handler runs
while the confirmation is armed. -/
theorem C10_clear_confirmation (s : PageState) :
    (s.showConfirmClear = false →
      (handleClearItinerary s).itinerary = s.itinerary ∧
      (handleClearItinerary s).clearCalls = s.clearCalls ∧
      (handleClearItinerary s).showConfirmClear = true ∧
      (handleClearItinerary s).pendingClearTimeouts =
        s.pendingClearTimeouts ++ [3000]) ∧
    ((clearTimeoutFire s).itinerary = s.itinerary ∧
      (clearTimeoutFire s).clearCalls = s.clearCalls ∧
      (s.pendingClearTimeouts ≠ [] →
        (clearTimeoutFire s).showConfirmClear = false)) ∧
    ((handleClearItinerary s).clearCalls = s.clearCalls + 1 ↔
      s.showConfirmClear = true) ∧
    (s.showConfirmClear = true → (handleClearItinerary s).itinerary = []) := by
  refine ⟨?_, ?_, ?_, ?_⟩
  · intro h
    unfold handleClearItinerary
    rw [h]
    simp
  · unfold clearTimeoutFire
    cases hp : s.pendingClearTimeouts with
    | nil => exact ⟨rfl, rfl, fun hc => absurd rfl hc⟩
    | cons a rest => exact ⟨rfl, rfl, fun _ => rfl⟩
  · constructor
    · intro hc
      by_contra hfalse
      have h : s.showConfirmClear = false := by
        cases hb : s.showConfirmClear
        · rfl
        · exact absurd hb hfalse
      unfold handleClearItinerary at hc
      rw [h] at hc
      simp at hc
    · intro h
      unfold handleClearItinerary
      rw [h]
      simp [clearItinerary]
  · intro h
    unfold handleClearItinerary
    rw [h]
    simp [clearItinerary]

/-- C10 witness: the confirmation behaviour instantiated on the
one-place page state with the confirmation not armed. -/
theorem C10_clear_confirmation_witness :
    (pageState0.showConfirmClear = false →
      (handleClearItinerary pageState0).itinerary = pageState0.itinerary ∧
      (handleClearItinerary pageState0).clearCalls = pageState0.clearCalls ∧
      (handleClearItinerary pageState0).showConfirmClear = true ∧
      (handleClearItinerary pageState0).pendingClearTimeouts =
        pageState0.pendingClearTimeouts ++ [3000]) ∧
    ((clearTimeoutFire pageState0).itinerary = pageState0.itinerary ∧
      (clearTimeoutFire pageState0).clearCalls = pageState0.clearCalls ∧
      (pageState0.pendingClearTimeouts ≠ [] →
        (clearTimeoutFire pageState0).showConfirmClear = false)) ∧
    ((handleClearItinerary pageState0).clearCalls =
        pageState0.clearCalls + 1 ↔
      pageState0.showConfirmClear = true) ∧
    (pageState0.showConfirmClear = true →
      (handleClearItinerary pageState0).itinerary = []) :=
  C10_clear_confirmation pageState0

end BusyTourism
